import Mathlib

/-!
Shallow embedding of `upsman` (src/main.rs), a CLI tool that issues
commands to and reads status variables from a NUT UPS server.

The external NUT connection (the `rups` library) is modelled as a record
of pure functions (`Connection`); every interaction with it is recorded
in an explicit call trace (`Call`).  Rust `f64` values of the Power path
are modelled bit-faithfully by `F64`: IEEE binary64 with NaN, signed
infinities and signed finite values; string parsing follows the
`f64::from_str` grammar and rounds to the nearest double (ties even),
multiplication rounds the exact product the same way, and two-decimal
formatting rounds the exact stored value at the second decimal place
(ties even), as Rust Display formatting does.
-/

set_option maxRecDepth 100000

/-- Embedding of `enum UsageType` from src/main.rs. -/
inductive UsageType
  | VoltageIn
  | VoltageOut
  | CurrentOut
  | Power
deriving DecidableEq, Repr, Fintype

/-- Embedding of `impl FromStr for UsageType`: the synonym table, matched literally. -/
def UsageType.fromStr (s : String) : Except String UsageType :=
  if s = "vin" ∨ s = "volt_in" ∨ s = "voltage_in" then .ok UsageType.VoltageIn
  else if s = "vout" ∨ s = "volt_out" ∨ s = "voltage_out" then .ok UsageType.VoltageOut
  else if s = "cout" ∨ s = "cur_out" ∨ s = "current_out" then .ok UsageType.CurrentOut
  else if s = "pwr" ∨ s = "power" then .ok UsageType.Power
  else .error "Invalid usage type value."

/-- Embedding of the `impl From` conversion to the protocol variable name.
`Power` is mapped to the empty string in the source. -/
def varName : UsageType → String
  | UsageType.VoltageIn => "input.voltage"
  | UsageType.VoltageOut => "output.voltage"
  | UsageType.CurrentOut => "output.current"
  | UsageType.Power => ""

/-- IEEE binary64 value as the Rust program holds it: `NaN`, a signed
infinity, or a signed finite value `(-1)^neg * m * 2 ^ e`.  Values built
by `toF64` are canonical: either `m = 0`, or a normal with
`2 ^ 52 ≤ m < 2 ^ 53` and `-1074 ≤ e ≤ 971`, or a subnormal with
`e = -1074` and `m < 2 ^ 52`. -/
inductive F64
  | nan
  | inf (neg : Bool)
  | fin (neg : Bool) (m : Nat) (e : Int)
deriving DecidableEq, Repr

/-- Numeric value of a digit-character list. -/
def natOfDigits (cs : List Char) : Nat :=
  cs.foldl (fun a c => a * 10 + (c.toNat - 48)) 0

/-- Round the exact nonnegative quotient `t / d` (with `d > 0`) to the
nearest integer, ties to even — the IEEE-754 and Rust-formatting rounding
rule. -/
def roundNEven (t d : Nat) : Nat :=
  let q := t / d
  let r := t % d
  if 2 * r < d then q
  else if 2 * r > d then q + 1
  else if q % 2 = 0 then q else q + 1

/-- Structural (fuel-driven) binary logarithm: for `n ≥ 1` the unique
`k` with `2 ^ k ≤ n < 2 ^ (k + 1)`. -/
def log2Fuel : Nat → Nat → Nat
  | 0, _ => 0
  | fuel + 1, n => if 2 ≤ n then log2Fuel fuel (n / 2) + 1 else 0

/-- Binary logarithm (floor) of a positive natural. -/
def natLog2 (n : Nat) : Nat := log2Fuel n n

/-- Decide `2 ^ e ≤ p / q` by cross-multiplication. -/
def pow2LE (e : Int) (p q : Nat) : Bool :=
  if 0 ≤ e then decide (q * 2 ^ e.toNat ≤ p) else decide (q ≤ p * 2 ^ (-e).toNat)

/-- Round the exact positive rational `p / q` (with `q > 0`) to the
nearest binary64, ties to even: pick the floor binary exponent `e0`,
clamp the unit-in-the-last-place exponent at the subnormal floor `-1074`,
round the scaled mantissa, renormalise a carry to `2 ^ 53`, and overflow
to infinity beyond the largest finite double. -/
def toF64 (p q : Nat) : F64 :=
  if p = 0 then .fin false 0 0
  else
    let d : Int := (natLog2 p : Int) - (natLog2 q : Int)
    let e0 : Int := if pow2LE d p q then d else d - 1
    let eu : Int := max (e0 - 52) (-1074)
    let m : Nat :=
      if 0 ≤ eu then roundNEven p (q * 2 ^ eu.toNat)
      else roundNEven (p * 2 ^ (-eu).toNat) q
    if m = 2 ^ 53 then
      if eu + 1 > 971 then .inf false else .fin false (2 ^ 52) (eu + 1)
    else if eu > 971 then .inf false
    else if m = 0 then .fin false 0 0
    else .fin false m eu

/-- Negation (used for a leading `-` sign). -/
def F64.negate : F64 → F64
  | .nan => .nan
  | .inf b => .inf (!b)
  | .fin b m e => .fin (!b) m e

/-- Impose a sign on a nonnegative rounding result. -/
def F64.setSign (s : Bool) : F64 → F64
  | .nan => .nan
  | .inf _ => .inf s
  | .fin _ m e => .fin s m e

/-- IEEE binary64 multiplication, modelling the Rust `*` on `f64`: the
exact product of the operands rounded to nearest (ties even), with the
IEEE special cases for NaN, infinities and signed zeros. -/
def F64.mul : F64 → F64 → F64
  | .nan, _ => .nan
  | _, .nan => .nan
  | .inf s1, .inf s2 => .inf (Bool.xor s1 s2)
  | .inf s1, .fin s2 m _ => if m = 0 then .nan else .inf (Bool.xor s1 s2)
  | .fin s1 m _, .inf s2 => if m = 0 then .nan else .inf (Bool.xor s1 s2)
  | .fin s1 m1 e1, .fin s2 m2 e2 =>
    let s := Bool.xor s1 s2
    if m1 * m2 = 0 then .fin s 0 0
    else
      let e := e1 + e2
      F64.setSign s
        (if 0 ≤ e then toF64 (m1 * m2 * 2 ^ e.toNat) 1
         else toF64 (m1 * m2) (2 ^ (-e).toNat))

/-- Scale a decimal significand by `10 ^ k` into an exact fraction. -/
def scale10 (sig : Nat) (k : Int) : Nat × Nat :=
  if 0 ≤ k then (sig * 10 ^ k.toNat, 1) else (sig, 10 ^ (-k).toNat)

/-- Exponent suffix of the Rust `f64` grammar: `(e|E) Sign? Digit+`
already split after the `e`/`E`; must consume the whole remainder. -/
def parseExpDigits (t : List Char) (sig : Nat) (fl : Nat) : Option (Nat × Nat) :=
  match t with
  | '-' :: ds =>
    if !ds.isEmpty && ds.all Char.isDigit then
      some (scale10 sig (-(natOfDigits ds : Int) - fl))
    else none
  | '+' :: ds =>
    if !ds.isEmpty && ds.all Char.isDigit then
      some (scale10 sig ((natOfDigits ds : Int) - fl))
    else none
  | ds =>
    if !ds.isEmpty && ds.all Char.isDigit then
      some (scale10 sig ((natOfDigits ds : Int) - fl))
    else none

/-- Optional exponent after the significand (whose value is `sig` with
`fl` fraction digits); anything but a full `e`/`E` exponent or the end of
input fails. -/
def parseExpPart (rest : List Char) (sig : Nat) (fl : Nat) : Option (Nat × Nat) :=
  match rest with
  | [] => some (scale10 sig (-(fl : Int)))
  | 'e' :: t => parseExpDigits t sig fl
  | 'E' :: t => parseExpDigits t sig fl
  | _ :: _ => none

/-- Number part of the Rust `f64` grammar,
`(Digit+ | Digit+ '.' Digit* | Digit* '.' Digit+) Exp?`, as an exact
fraction `p / q`. -/
def parseNumber (cs : List Char) : Option (Nat × Nat) :=
  let ip := cs.takeWhile Char.isDigit
  let rest1 := cs.dropWhile Char.isDigit
  match rest1 with
  | '.' :: t =>
    let fp := t.takeWhile Char.isDigit
    let rest2 := t.dropWhile Char.isDigit
    if ip.isEmpty && fp.isEmpty then none
    else parseExpPart rest2 (natOfDigits ip * 10 ^ fp.length + natOfDigits fp)
      fp.length
  | _ =>
    if ip.isEmpty then none
    else parseExpPart rest1 (natOfDigits ip) 0

/-- Unsigned body of Rust `f64::from_str`: the case-insensitive `inf`,
`infinity` and `nan` forms, or a number rounded to the nearest double. -/
def parseMag (cs : List Char) : Option F64 :=
  let low := cs.map Char.toLower
  if low = "inf".data ∨ low = "infinity".data then some (.inf false)
  else if low = "nan".data then some .nan
  else (parseNumber cs).map (fun pq => toF64 pq.1 pq.2)

/-- Rust `str::parse::<f64>()`: optional sign, then `inf`/`infinity`/
`nan` (case-insensitive) or a decimal number with optional exponent,
rounded to the nearest binary64 (ties even). -/
def parseF64 (s : String) : Option F64 :=
  match s.data with
  | '-' :: cs => (parseMag cs).map F64.negate
  | '+' :: cs => parseMag cs
  | _ => parseMag s.data

/-- Rust `s.splitn(2, ": ").nth(1)`: everything after the first
occurrence of the separator `": "`, if present. -/
def splitValueChars : List Char → Option (List Char)
  | [] => none
  | [_] => none
  | a :: b :: rest =>
    if a = ':' ∧ b = ' ' then some rest else splitValueChars (b :: rest)

/-- String-level wrapper of `splitValueChars`. -/
def splitValue (s : String) : Option String :=
  (splitValueChars s.data).map String.mk

/-- Rust `format!("{:.2}", x)`: `NaN` and infinities print their Display
forms; a finite double prints its sign and the exact stored value
rounded to two decimal places, ties to even. -/
def fmt2 (x : F64) : String :=
  match x with
  | .nan => "NaN"
  | .inf s => if s then "-inf" else "inf"
  | .fin s m e =>
    let n :=
      if 0 ≤ e then roundNEven (m * 100 * 2 ^ e.toNat) 1
      else roundNEven (m * 100) (2 ^ (-e).toNat)
    (if s then "-" else "") ++ toString (n / 100) ++ "." ++
      (if n % 100 < 10 then "0" else "") ++ toString (n % 100)

/-- The external NUT connection collaborator (the `rups` library),
modelled as pure result functions: what `get_var` and `run_command`
would return for given device and variable/command. -/
structure Connection where
  get_var : String → String → Except String String
  run_command : String → Option String → Except String Unit

/-- One call made to the external connection collaborator. -/
inductive Call
  | get_var (ups name : String)
  | run_command (ups : String) (cmd : Option String)
deriving DecidableEq, Repr

/-- Embedding of `fn parse_var`: fetch the mapped variable, split the
returned text at the first `": "`, parse the value half as a number;
both a missing separator and an unparseable value half collapse to the
`Variable <name> not found` error. -/
def parse_var (connection : Connection) (ups_name : String)
    (usage_type : UsageType) : Except String F64 :=
  let name := varName usage_type
  match connection.get_var ups_name name with
  | .error e => .error e
  | .ok v =>
    match (splitValue v).bind parseF64 with
    | some x => .ok x
    | none => .error ("Variable " ++ name ++ " not found")

/-- The calls `parse_var` issues: always exactly the one `get_var` for
the mapped variable. -/
def parse_var_calls (ups_name : String) (usage_type : UsageType) : List Call :=
  [Call.get_var ups_name (varName usage_type)]

/-- Result of running one operation: the stdout lines printed, the calls
made to the connection, and the error it aborted with (if any). -/
structure RunOut where
  lines : List String
  calls : List Call
  err : Option String
deriving DecidableEq, Repr

/-- One iteration of the loop body of `fn usage`: the line printed for
one usage type (or the error aborting it), together with the `get_var`
calls made. -/
def usageStep (connection : Connection) (ups_name : String)
    (ut : UsageType) : Except String String × List Call :=
  if ut = UsageType.Power then
    match parse_var connection ups_name UsageType.VoltageOut with
    | .error e => (.error e, parse_var_calls ups_name UsageType.VoltageOut)
    | .ok voltage_out =>
      match parse_var connection ups_name UsageType.CurrentOut with
      | .error e =>
        (.error e, parse_var_calls ups_name UsageType.VoltageOut ++
          parse_var_calls ups_name UsageType.CurrentOut)
      | .ok current_out =>
        (.ok ("power: " ++ fmt2 (F64.mul voltage_out current_out) ++ " W"),
          parse_var_calls ups_name UsageType.VoltageOut ++
            parse_var_calls ups_name UsageType.CurrentOut)
  else
    match connection.get_var ups_name (varName ut) with
    | .error e => (.error e, [Call.get_var ups_name (varName ut)])
    | .ok v => (.ok v, [Call.get_var ups_name (varName ut)])

/-- Embedding of `fn usage`: process the requested usage types in order,
printing one line each, aborting on the first failure. -/
def usage (connection : Connection) (ups_name : String) :
    List UsageType → RunOut
  | [] => ⟨[], [], none⟩
  | ut :: rest =>
    match usageStep connection ups_name ut with
    | (.error e, cs) => ⟨[], cs, some e⟩
    | (.ok line, cs) =>
      let out := usage connection ups_name rest
      ⟨line :: out.lines, cs ++ out.calls, out.err⟩

/-- Embedding of `fn load_on`: one `run_command` with `load.on`; silent on success,
error propagated verbatim. -/
def load_on (connection : Connection) (ups_name : String) : RunOut :=
  match connection.run_command ups_name (some "load.on") with
  | .ok _ => ⟨[], [Call.run_command ups_name (some "load.on")], none⟩
  | .error e => ⟨[], [Call.run_command ups_name (some "load.on")], some e⟩

/-- Embedding of `fn load_off`: one `run_command` with `load.off`; silent on success,
error propagated verbatim. -/
def load_off (connection : Connection) (ups_name : String) : RunOut :=
  match connection.run_command ups_name (some "load.off") with
  | .ok _ => ⟨[], [Call.run_command ups_name (some "load.off")], none⟩
  | .error e => ⟨[], [Call.run_command ups_name (some "load.off")], some e⟩

/-- Mock connection of the spec examples: voltage and current variables
answer with the documented texts, every command succeeds. -/
def mockConn : Connection where
  get_var := fun _ name =>
    if name = "output.voltage" then .ok "output.voltage: 120.0"
    else if name = "output.current" then .ok "output.current: 2.0"
    else if name = "input.voltage" then .ok "input.voltage: 118.5"
    else .error "unknown variable"
  run_command := fun _ _ => .ok ()

/-- Mock connection on which every collaborator call fails. -/
def mockConnFail : Connection where
  get_var := fun _ _ => .error "boom"
  run_command := fun _ _ => .error "boom"

/-- Mock connection returning a value text without the `": "` separator. -/
def mockConnBad : Connection where
  get_var := fun _ _ => .ok "120.0"
  run_command := fun _ _ => .ok ()

/-- Mock connection whose value text carries a name half different from
the requested variable. -/
def mockConnMis : Connection where
  get_var := fun _ _ => .ok "bogus.name: 7.5"
  run_command := fun _ _ => .ok ()

/-- Helper: a `get_var` call issued by one loop iteration never uses an
empty variable name. -/
theorem usageStep_get_var_ne_empty (conn : Connection) (ups : String)
    (ut : UsageType) (u n : String)
    (h : Call.get_var u n ∈ (usageStep conn ups ut).2) : n ≠ "" := by
  by_cases hp : ut = UsageType.Power
  · subst hp
    rcases h1 : parse_var conn ups UsageType.VoltageOut with e | v
    · simp [usageStep, h1, parse_var_calls, varName] at h
      rcases h with ⟨-, rfl⟩
      decide
    · rcases h2 : parse_var conn ups UsageType.CurrentOut with e | c
      all_goals
        simp [usageStep, h1, h2, parse_var_calls, varName] at h
        rcases h with ⟨-, rfl⟩ | ⟨-, rfl⟩ <;> decide
  · rcases hg : conn.get_var ups (varName ut) with e | v
    all_goals
      simp [usageStep, hp, hg] at h
      rcases h with ⟨-, rfl⟩
      cases ut <;> simp_all [varName]

/-- Helper: every `get_var` call in a whole `usage` run uses a non-empty
variable name. -/
theorem usage_get_var_ne_empty (conn : Connection) (ups : String)
    (uts : List UsageType) :
    ∀ u n, Call.get_var u n ∈ (usage conn ups uts).calls → n ≠ "" := by
  induction uts with
  | nil => intro u n h; simp [usage] at h
  | cons ut rest ih =>
    intro u n h
    rcases hstep : usageStep conn ups ut with ⟨res, cs⟩
    have hcs : Call.get_var u n ∈ cs → n ≠ "" := fun hm =>
      usageStep_get_var_ne_empty conn ups ut u n (by rw [hstep]; exact hm)
    cases res with
    | error e =>
      rw [usage, hstep] at h
      exact hcs h
    | ok line =>
      rw [usage, hstep] at h
      simp only [List.mem_append] at h
      rcases h with h | h
      · exact hcs h
      · exact ih u n h

/-- C9: for the empty sequence of usage types, `usage` succeeds, makes no
calls to the connection, and prints nothing. -/
theorem usage_nil_no_output (conn : Connection) (ups : String) :
    usage conn ups [] = ⟨[], [], none⟩ := rfl

/-- C2: every token of the synonym table resolves to its documented
`UsageType` (matched literally), and every token outside the table fails
with the `Invalid usage type value.` error. -/
theorem fromStr_synonym_table :
    (UsageType.fromStr "vin" = .ok UsageType.VoltageIn ∧
      UsageType.fromStr "volt_in" = .ok UsageType.VoltageIn ∧
      UsageType.fromStr "voltage_in" = .ok UsageType.VoltageIn ∧
      UsageType.fromStr "vout" = .ok UsageType.VoltageOut ∧
      UsageType.fromStr "volt_out" = .ok UsageType.VoltageOut ∧
      UsageType.fromStr "voltage_out" = .ok UsageType.VoltageOut ∧
      UsageType.fromStr "cout" = .ok UsageType.CurrentOut ∧
      UsageType.fromStr "cur_out" = .ok UsageType.CurrentOut ∧
      UsageType.fromStr "current_out" = .ok UsageType.CurrentOut ∧
      UsageType.fromStr "pwr" = .ok UsageType.Power ∧
      UsageType.fromStr "power" = .ok UsageType.Power) ∧
    ∀ s : String,
      s ∉ (["vin", "volt_in", "voltage_in", "vout", "volt_out", "voltage_out",
        "cout", "cur_out", "current_out", "pwr", "power"] : List String) →
      UsageType.fromStr s = .error "Invalid usage type value." := by
  refine ⟨⟨rfl, rfl, rfl, rfl, rfl, rfl, rfl, rfl, rfl, rfl, rfl⟩, ?_⟩
  intro s hs
  simp only [List.mem_cons, List.not_mem_nil, or_false, not_or] at hs
  obtain ⟨h1, h2, h3, h4, h5, h6, h7, h8, h9, h10, h11⟩ := hs
  simp [UsageType.fromStr, h1, h2, h3, h4, h5, h6, h7, h8, h9, h10, h11]

/-- Witness for C2 at the concrete unknown token `bogus`. -/
theorem fromStr_synonym_table_witness :
    UsageType.fromStr "bogus" = .error "Invalid usage type value." :=
  fromStr_synonym_table.2 "bogus" (by decide)

/-- C3: the variable-name mapping sends `VoltageIn`, `VoltageOut`,
`CurrentOut` to the three documented non-empty names injectively; `Power`
is mapped to the empty string (no variable name), and no operation ever
issues a `get_var` with that empty name (`usage` only fetches non-empty
names, the load commands fetch none). -/
theorem varName_mapping_invariant :
    (varName UsageType.VoltageIn = "input.voltage" ∧
      varName UsageType.VoltageOut = "output.voltage" ∧
      varName UsageType.CurrentOut = "output.current" ∧
      varName UsageType.Power = "") ∧
    (∀ a b : UsageType, a ≠ UsageType.Power → b ≠ UsageType.Power →
      varName a = varName b → a = b) ∧
    (∀ u : UsageType, u ≠ UsageType.Power → varName u ≠ "") ∧
    (∀ (conn : Connection) (ups : String) (uts : List UsageType) (u n : String),
      Call.get_var u n ∈ (usage conn ups uts).calls → n ≠ varName UsageType.Power) ∧
    (∀ (conn : Connection) (ups u n : String),
      Call.get_var u n ∉ (load_on conn ups).calls ∧
      Call.get_var u n ∉ (load_off conn ups).calls) := by
  refine ⟨by decide, by decide, by decide, ?_, ?_⟩
  · intro conn ups uts u n h
    exact usage_get_var_ne_empty conn ups uts u n h
  · intro conn ups u n
    constructor
    · rcases h : conn.run_command ups (some "load.on") with e | x <;>
        simp [load_on, h]
    · rcases h : conn.run_command ups (some "load.off") with e | x <;>
        simp [load_off, h]

/-- Witness for C3 at a concrete run: the one `get_var` issued for
`voltage_in` does not use the (empty) name mapped to `Power`. -/
theorem varName_mapping_invariant_witness :
    ("input.voltage" : String) ≠ varName UsageType.Power :=
  varName_mapping_invariant.2.2.2.1 mockConn "myups" [UsageType.VoltageIn]
    "myups" "input.voltage" (by decide)

/-- C6: for a non-Power usage type, the reporter fetches exactly the
mapped variable and prints the returned text verbatim; in particular a
connection answering `input.voltage: 118.5` for `VoltageIn` makes
`voltage_in` print exactly that text. -/
theorem usage_non_power_verbatim :
    (∀ (conn : Connection) (ups : String) (ut : UsageType) (v : String),
      ut ≠ UsageType.Power →
      conn.get_var ups (varName ut) = .ok v →
      usageStep conn ups ut = (.ok v, [Call.get_var ups (varName ut)])) ∧
    (∀ (conn : Connection) (ups : String),
      conn.get_var ups "input.voltage" = .ok "input.voltage: 118.5" →
      usage conn ups [UsageType.VoltageIn] =
        ⟨["input.voltage: 118.5"], [Call.get_var ups "input.voltage"], none⟩) := by
  constructor
  · intro conn ups ut v hne hg
    simp [usageStep, hne, hg]
  · intro conn ups hg
    have hstep : usageStep conn ups UsageType.VoltageIn =
        (.ok "input.voltage: 118.5", [Call.get_var ups "input.voltage"]) := by
      simp [usageStep, varName, hg]
    rw [usage, hstep, usage]
    rfl

/-- Witness for C6 at a concrete mock connection. -/
theorem usage_non_power_verbatim_witness :
    usage mockConn "myups" [UsageType.VoltageIn] =
      ⟨["input.voltage: 118.5"], [Call.get_var "myups" "input.voltage"], none⟩ :=
  usage_non_power_verbatim.2 mockConn "myups" rfl

/-- C7: each load operation issues exactly one `run_command` — with
`load.off` respectively `load.on` — against the configured device, prints
nothing, succeeds silently when the collaborator succeeds, and propagates
the collaborator error verbatim. -/
theorem load_commands_contract :
    ∀ (conn : Connection) (ups : String),
      ((load_off conn ups).calls = [Call.run_command ups (some "load.off")] ∧
        (load_on conn ups).calls = [Call.run_command ups (some "load.on")]) ∧
      ((load_off conn ups).lines = [] ∧ (load_on conn ups).lines = []) ∧
      (conn.run_command ups (some "load.off") = .ok () →
        (load_off conn ups).err = none) ∧
      (conn.run_command ups (some "load.on") = .ok () →
        (load_on conn ups).err = none) ∧
      (∀ e, conn.run_command ups (some "load.off") = .error e →
        (load_off conn ups).err = some e) ∧
      (∀ e, conn.run_command ups (some "load.on") = .error e →
        (load_on conn ups).err = some e) := by
  intro conn ups
  refine ⟨⟨?_, ?_⟩, ⟨?_, ?_⟩, ?_, ?_, ?_, ?_⟩
  · rcases h : conn.run_command ups (some "load.off") with e | x <;>
      simp [load_off, h]
  · rcases h : conn.run_command ups (some "load.on") with e | x <;>
      simp [load_on, h]
  · rcases h : conn.run_command ups (some "load.off") with e | x <;>
      simp [load_off, h]
  · rcases h : conn.run_command ups (some "load.on") with e | x <;>
      simp [load_on, h]
  · intro h; simp [load_off, h]
  · intro h; simp [load_on, h]
  · intro e h; simp [load_off, h]
  · intro e h; simp [load_on, h]

/-- Witness for C7 at a concrete mock connection whose commands succeed. -/
theorem load_commands_contract_witness :
    (load_off mockConn "myups").err = none :=
  (load_commands_contract mockConn "myups").2.2.1 rfl

/-- C1: for the Power usage type the reporter fetches `VoltageOut` and
`CurrentOut` (in that order), parses both values, and prints the product
to two decimal places with the ` W` suffix; with the documented mock
answers `output.voltage: 120.0` and `output.current: 2.0` the printed
line is exactly `power: 240.00 W`. -/
theorem usage_power_product :
    (∀ (conn : Connection) (ups : String) (v c : F64),
      parse_var conn ups UsageType.VoltageOut = .ok v →
      parse_var conn ups UsageType.CurrentOut = .ok c →
      usageStep conn ups UsageType.Power =
        (.ok ("power: " ++ fmt2 (F64.mul v c) ++ " W"),
          [Call.get_var ups "output.voltage", Call.get_var ups "output.current"])) ∧
    (∀ (conn : Connection) (ups : String),
      conn.get_var ups "output.voltage" = .ok "output.voltage: 120.0" →
      conn.get_var ups "output.current" = .ok "output.current: 2.0" →
      usage conn ups [UsageType.Power] =
        ⟨["power: 240.00 W"],
          [Call.get_var ups "output.voltage", Call.get_var ups "output.current"],
          none⟩) := by
  constructor
  · intro conn ups v c hv hc
    simp [usageStep, hv, hc, parse_var_calls, varName]
  · intro conn ups hv hc
    have hpv : parse_var conn ups UsageType.VoltageOut = .ok (F64.fin false 8444249301319680 (-46)) := by
      simp only [parse_var, varName, hv]
      rfl
    have hpc : parse_var conn ups UsageType.CurrentOut = .ok (F64.fin false 4503599627370496 (-51)) := by
      simp only [parse_var, varName, hc]
      rfl
    have hstep : usageStep conn ups UsageType.Power =
        (.ok "power: 240.00 W",
          [Call.get_var ups "output.voltage", Call.get_var ups "output.current"]) := by
      simp [usageStep, hpv, hpc, parse_var_calls, varName]
      rfl
    rw [usage, hstep, usage]
    rfl

/-- Witness for C1 at the documented mock connection. -/
theorem usage_power_product_witness :
    usage mockConn "myups" [UsageType.Power] =
      ⟨["power: 240.00 W"],
        [Call.get_var "myups" "output.voltage", Call.get_var "myups" "output.current"],
        none⟩ :=
  usage_power_product.2 mockConn "myups" rfl rfl

/-- C5: for a fetched text on the Power path, `parse_var` splits at the
`": "` separator and parses the value half; a missing separator and an
unparseable value half both fail with the error naming the variable, and
a parseable value half succeeds with that number. -/
theorem parse_var_split_and_parse :
    ∀ (conn : Connection) (ups : String) (ut : UsageType) (s : String),
      conn.get_var ups (varName ut) = .ok s →
      (splitValue s = none →
        parse_var conn ups ut = .error ("Variable " ++ varName ut ++ " not found")) ∧
      (∀ v, splitValue s = some v → parseF64 v = none →
        parse_var conn ups ut = .error ("Variable " ++ varName ut ++ " not found")) ∧
      (∀ v x, splitValue s = some v → parseF64 v = some x →
        parse_var conn ups ut = .ok x) := by
  intro conn ups ut s hg
  refine ⟨?_, ?_, ?_⟩
  · intro hsp
    simp [parse_var, hg, hsp]
  · intro v hsp hp
    simp [parse_var, hg, hsp, hp]
  · intro v x hsp hp
    simp [parse_var, hg, hsp, hp]

/-- Witness for C5: a value text without the separator fails with the
error naming the variable. -/
theorem parse_var_split_and_parse_witness :
    parse_var mockConnBad "myups" UsageType.VoltageOut =
      .error ("Variable " ++ varName UsageType.VoltageOut ++ " not found") :=
  (parse_var_split_and_parse mockConnBad "myups" UsageType.VoltageOut "120.0" rfl).1
    rfl

/-- C4: processing is sequential in input order and fail-fast: when the
step for one usage type fails, the whole run keeps exactly the lines of
the earlier types and aborts with that error, printing nothing for the
failing or any later type. -/
theorem usage_fail_fast :
    ∀ (conn : Connection) (ups : String) (pre : List UsageType) (ut : UsageType)
      (rest : List UsageType) (e : String),
      (usage conn ups pre).err = none →
      (usageStep conn ups ut).1 = .error e →
      (usage conn ups (pre ++ ut :: rest)).lines = (usage conn ups pre).lines ∧
      (usage conn ups (pre ++ ut :: rest)).err = some e := by
  intro conn ups pre
  induction pre with
  | nil =>
    intro ut rest e _ hstep
    rcases h : usageStep conn ups ut with ⟨res, cs⟩
    rw [h] at hstep
    have hres : res = Except.error e := hstep
    subst hres
    simp [usage, h]
  | cons p ps ih =>
    intro ut rest e herr hstep
    rcases hp : usageStep conn ups p with ⟨res, cs⟩
    cases res with
    | error e2 =>
      exfalso
      rw [usage, hp] at herr
      simp at herr
    | ok line =>
      have hmain : usage conn ups (p :: (ps ++ ut :: rest)) =
          ⟨line :: (usage conn ups (ps ++ ut :: rest)).lines,
            cs ++ (usage conn ups (ps ++ ut :: rest)).calls,
            (usage conn ups (ps ++ ut :: rest)).err⟩ := by
        rw [usage, hp]
      have hpre : usage conn ups (p :: ps) =
          ⟨line :: (usage conn ups ps).lines, cs ++ (usage conn ups ps).calls,
            (usage conn ups ps).err⟩ := by
        rw [usage, hp]
      rw [hpre] at herr
      replace herr : (usage conn ups ps).err = none := herr
      obtain ⟨hl, he⟩ := ih ut rest e herr hstep
      constructor
      · rw [List.cons_append, hmain, hpre]
        simp [hl]
      · rw [List.cons_append, hmain]
        simpa using he

/-- Witness for C4: requesting `[power, voltage_in]` on a connection whose
fetches fail aborts with the fetch error before printing anything. -/
theorem usage_fail_fast_witness :
    (usage mockConnFail "myups"
        ([] ++ UsageType.Power :: [UsageType.VoltageIn])).lines =
      (usage mockConnFail "myups" []).lines ∧
    (usage mockConnFail "myups"
        ([] ++ UsageType.Power :: [UsageType.VoltageIn])).err = some "boom" :=
  usage_fail_fast mockConnFail "myups" [] UsageType.Power [UsageType.VoltageIn]
    "boom" rfl rfl

/-- What one successfully printed line must look like for one requested
usage type: Power lines are the formatted product of the two parsed
fetches, any other line is the raw text returned for the mapped
variable. -/
def lineSpec (conn : Connection) (ups : String) (ut : UsageType)
    (l : String) : Prop :=
  (ut = UsageType.Power → ∃ v c : F64,
    parse_var conn ups UsageType.VoltageOut = .ok v ∧
    parse_var conn ups UsageType.CurrentOut = .ok c ∧
    l = "power: " ++ fmt2 (F64.mul v c) ++ " W") ∧
  (ut ≠ UsageType.Power → conn.get_var ups (varName ut) = .ok l)

/-- Helper: a successful loop iteration produces a line satisfying
`lineSpec`. -/
theorem usageStep_ok_lineSpec (conn : Connection) (ups : String)
    (ut : UsageType) (line : String) (cs : List Call)
    (h : usageStep conn ups ut = (.ok line, cs)) : lineSpec conn ups ut line := by
  by_cases hp : ut = UsageType.Power
  · subst hp
    rcases h1 : parse_var conn ups UsageType.VoltageOut with e | v
    · simp [usageStep, h1] at h
    · rcases h2 : parse_var conn ups UsageType.CurrentOut with e | c
      · simp [usageStep, h1, h2] at h
      · simp [usageStep, h1, h2] at h
        refine ⟨fun _ => ⟨v, c, h1, h2, ?_⟩, fun hne => absurd rfl hne⟩
        exact h.1.symm
  · rcases hg : conn.get_var ups (varName ut) with e | v
    · simp [usageStep, hp, hg] at h
    · simp [usageStep, hp, hg] at h
      refine ⟨fun hpow => absurd hpow hp, fun _ => ?_⟩
      rw [hg, h.1]

/-- C8: a successful `usage` run prints exactly one line per requested
type, in input order with duplicates preserved: `List.Forall₂` pairs the
requested list with the printed lines, each line shaped per `lineSpec`. -/
theorem usage_output_shape :
    ∀ (conn : Connection) (ups : String) (uts : List UsageType),
      (usage conn ups uts).err = none →
      List.Forall₂ (lineSpec conn ups) uts (usage conn ups uts).lines := by
  intro conn ups uts
  induction uts with
  | nil => intro _; simp [usage]
  | cons ut rest ih =>
    intro herr
    rcases hstep : usageStep conn ups ut with ⟨res, cs⟩
    cases res with
    | error e =>
      exfalso
      rw [usage, hstep] at herr
      simp at herr
    | ok line =>
      have hmain : usage conn ups (ut :: rest) =
          ⟨line :: (usage conn ups rest).lines,
            cs ++ (usage conn ups rest).calls, (usage conn ups rest).err⟩ := by
        rw [usage, hstep]
      rw [hmain] at herr ⊢
      replace herr : (usage conn ups rest).err = none := herr
      exact List.Forall₂.cons (usageStep_ok_lineSpec conn ups ut line cs hstep)
        (ih herr)

/-- Witness for C8 at a concrete successful run with a duplicate type. -/
theorem usage_output_shape_witness :
    List.Forall₂ (lineSpec mockConn "myups")
      [UsageType.Power, UsageType.VoltageIn, UsageType.Power]
      (usage mockConn "myups"
        [UsageType.Power, UsageType.VoltageIn, UsageType.Power]).lines :=
  usage_output_shape mockConn "myups"
    [UsageType.Power, UsageType.VoltageIn, UsageType.Power] rfl

/-- Helper: appending the separator and a tail to a prefix free of the
separator splits exactly at that (first) separator occurrence. -/
theorem splitValueChars_append_sep :
    ∀ (pfx num : List Char), splitValueChars pfx = none →
      splitValueChars (pfx ++ ':' :: ' ' :: num) = some num := by
  intro pfx
  induction pfx with
  | nil => intro num _; simp [splitValueChars]
  | cons a tl ih =>
    intro num h
    cases tl with
    | nil =>
      simp only [List.cons_append, List.nil_append]
      rw [splitValueChars, if_neg (by simp)]
      simp [splitValueChars]
    | cons b tl2 =>
      rw [splitValueChars] at h
      by_cases hc : a = ':' ∧ b = ' '
      · rw [if_pos hc] at h
        exact absurd h (by simp)
      · rw [if_neg hc] at h
        simp only [List.cons_append]
        rw [splitValueChars, if_neg hc]
        exact ih num h

/-- C10: the numeric parser never compares the name half against the
requested variable: splitting happens at the first `": "` occurrence, and
any text `<prefix>: <number>` whose number half parses succeeds with that
number, whatever the prefix is. -/
theorem parse_var_ignores_name_half :
    (∀ (pfx num : List Char), splitValueChars pfx = none →
      splitValueChars (pfx ++ ':' :: ' ' :: num) = some num) ∧
    (∀ (conn : Connection) (ups : String) (ut : UsageType)
      (pfx num : List Char) (x : F64),
      splitValueChars pfx = none →
      parseF64 (String.mk num) = some x →
      conn.get_var ups (varName ut) = .ok (String.mk (pfx ++ ':' :: ' ' :: num)) →
      parse_var conn ups ut = .ok x) := by
  refine ⟨splitValueChars_append_sep, ?_⟩
  intro conn ups ut pfx num x hns hpn hg
  have hsp : splitValue (String.mk (pfx ++ ':' :: ' ' :: num)) =
      some (String.mk num) := by
    unfold splitValue
    rw [show (String.mk (pfx ++ ':' :: ' ' :: num)).data =
      pfx ++ ':' :: ' ' :: num from rfl]
    rw [splitValueChars_append_sep pfx num hns]
    rfl
  simp [parse_var, hg, hsp, hpn]

/-- Witness for C10: a value text with a mismatched name half still
parses to its number. -/
theorem parse_var_ignores_name_half_witness :
    parse_var mockConnMis "myups" UsageType.VoltageOut = .ok (F64.fin false 8444249301319680 (-50)) :=
  parse_var_ignores_name_half.2 mockConnMis "myups" UsageType.VoltageOut
    "bogus.name".data "7.5".data (F64.fin false 8444249301319680 (-50))
    (by decide) (by decide) rfl

